import Mathlib

/-!
Verification of the neurogym trial-scheduling engine and four task
environments (`RDM`, `ReadySetGo`, `DelayedMatchCategory`,
`nalt_PerceptualDecisionMaking`) against their natural-language
specification.

Numeric values are embedded as exact rationals (`ℚ`); the single
real-power reward formula of `ReadySetGo._step` is embedded over `ℝ`.
Times are physical milliseconds; timestep indices are integers.

The task files under `src/` are the authority for each task's
`__init__`, `new_trial`/`_new_trial` and `step`/`_step` logic.  The
shared base classes (`ngym`, `EpochEnv`/`PeriodEnv`) and the
`tasktools` helpers are not part of the repository snapshot; the
definitions that stand in for them are modelled from the spec and say
so in their doc comments.
-/

namespace NeuroGym

/-- Modelled from the spec: the Epoch Timeline Builder (§4.2) converts a
physical boundary time to a timestep index via `round(time / dt)`
(rounding half up). This stands in for the missing
`tasktools.get_epochs_idx` / `EpochEnv.add_epoch` discretisation. -/
def roundIdx (time dt : ℚ) : ℤ := ⌊time / dt + 1/2⌋

/-- Modelled from the spec: the Timeline's length is
`N = ceil(total_duration / dt)` (§3, Timeline). -/
def ceilIdx (time dt : ℚ) : ℤ := ⌈time / dt⌉

/-- A physical boundary time snapped onto the timestep grid:
`round(time / dt) * dt` (spec §3: period boundaries are always
multiples of `dt` after rounding). -/
def snap (time dt : ℚ) : ℚ := (roundIdx time dt : ℚ) * dt

/-- The set of timestep indices owned by a period with physical
boundaries `[start, stop)`: the half-open index interval
`[round(start/dt), round(stop/dt))`. -/
def epochIdx (start stop dt : ℚ) : Finset ℤ :=
  Finset.Ico (roundIdx start dt) (roundIdx stop dt)

/-- Membership of an index in a half-open index interval. -/
def inIdx (p : ℤ × ℤ) (t : ℤ) : Prop := p.1 ≤ t ∧ t < p.2

instance (p : ℤ × ℤ) (t : ℤ) : Decidable (inIdx p t) :=
  inferInstanceAs (Decidable (p.1 ≤ t ∧ t < p.2))

/-- Membership of a physical time in a half-open span of physical
times (used by tasks whose clock `self.t` runs in milliseconds). -/
def inSpan (p : ℚ × ℚ) (t : ℚ) : Prop := p.1 ≤ t ∧ t < p.2

instance (p : ℚ × ℚ) (t : ℚ) : Decidable (inSpan p t) :=
  inferInstanceAs (Decidable (p.1 ≤ t ∧ t < p.2))

/-- Modelled from the spec: the process-owned pseudo-random generator
(§3, RNG state), threaded explicitly.  `stream` yields the successive
raw draws and `pos` is the cursor; every stochastic call sites reads
the stream at the cursor and advances it, so the draw order is
deterministic given the state. -/
structure RNG where
  stream : ℕ → ℚ
  pos : ℕ

/-- One raw draw from the generator. -/
def RNG.draw (g : RNG) : ℚ × RNG := (g.stream g.pos, ⟨g.stream, g.pos + 1⟩)

/-- `k` successive raw draws. -/
def RNG.drawN (g : RNG) : ℕ → List ℚ × RNG
  | 0 => ([], g)
  | k + 1 =>
    let u := g.draw
    let rest := u.2.drawN k
    (u.1 :: rest.1, rest.2)

/-- `rng.choice(l)`: a uniform pick from a finite list, driven by one
raw draw. -/
def RNG.choice {α : Type} (g : RNG) (l : List α) (d : α) : α × RNG :=
  let u := g.draw
  (l.getD (u.1.num.natAbs % l.length) d, u.2)

/-- Values stored in the `info`/`status` dictionaries returned by the
step functions. -/
inductive DVal where
  | bool (b : Bool)
  | int (i : ℤ)
  | rat (q : ℚ)
  | str (s : String)
  | vec (v : List ℚ)
deriving DecidableEq

/-- The key list of an `info`/`status` dictionary. -/
def keysOf (info : List (String × DVal)) : List String := info.map Prod.fst

/-- The common shape of a task's step return value:
`(observation, reward, done, info)`. -/
structure TaskOut where
  obs : List ℚ
  reward : ℚ
  done : Bool
  info : List (String × DVal)

/-! ## ReadySetGo (src/neurogym/envs/readysetgo.py)

`ReadySetGo.__init__(dt=80, timing=(500, 83, 83), gain=1)` stores the
timing triple as `fixation`, `ready`, `set` and the constant rewards
`R_ABORTED = -0.1`, `R_CORRECT = +1`, `R_FAIL = 0`, `R_MISS = 0` and
`abort = False`.  `_new_trial` draws `measure` from
`[500, 580, 660, 760, 840, 920, 1000]`, sets
`production = measure * gain` and declares the epochs

  fixation   (duration `fixation`,  after 0)
  ready      (duration `ready`,     after fixation)
  measure    (duration `measure`,   after fixation)
  set        (duration `set`,       after measure)
  production (duration `2*production`, after set, last epoch)

The epoch layout (`add_epoch` of the missing `EpochEnv` base) is
modelled from the spec §4.2: each epoch starts at the end of the epoch
named by `after`, ends `duration` later, and boundaries are snapped to
the grid. -/

structure RSGCfg where
  dt : ℚ
  fixation : ℚ
  ready : ℚ
  setDur : ℚ
  gain : ℚ
  R_ABORTED : ℚ
  R_CORRECT : ℚ
  R_FAIL : ℚ
  abort : Bool

/-- `ReadySetGo.__init__`: timing defaults `(500, 83, 83)`, rewards
`R_ABORTED = -0.1`, `R_CORRECT = 1`, `R_FAIL = 0`, `abort = False`. -/
def rsgInit (dt : ℚ) (timing : ℚ × ℚ × ℚ) (gain : ℚ) : RSGCfg :=
  ⟨dt, timing.1, timing.2.1, timing.2.2, gain, -1/10, 1, 0, false⟩

/-- The list of drawn measures, `self.measures`. -/
def rsgMeasures : List ℚ := [500, 580, 660, 760, 840, 920, 1000]

/-- Physical boundaries of the `fixation` epoch, snapped to the grid. -/
def rsg_fixSpan (c : RSGCfg) : ℚ × ℚ :=
  (snap 0 c.dt, snap c.fixation c.dt)

/-- Physical boundaries of the `ready` epoch (declared `after='fixation'`). -/
def rsg_readySpan (c : RSGCfg) : ℚ × ℚ :=
  (snap c.fixation c.dt, snap (c.fixation + c.ready) c.dt)

/-- Physical boundaries of the `measure` epoch (also `after='fixation'`). -/
def rsg_measureSpan (c : RSGCfg) (measure : ℚ) : ℚ × ℚ :=
  (snap c.fixation c.dt, snap (c.fixation + measure) c.dt)

/-- Physical boundaries of the `set` epoch (`after='measure'`). -/
def rsg_setSpan (c : RSGCfg) (measure : ℚ) : ℚ × ℚ :=
  (snap (c.fixation + measure) c.dt,
   snap (c.fixation + measure + c.setDur) c.dt)

/-- Physical boundaries of the `production` epoch (`after='set'`,
duration `2*production` with `production = measure*gain`). -/
def rsg_prodSpan (c : RSGCfg) (measure : ℚ) : ℚ × ℚ :=
  (snap (c.fixation + measure + c.setDur) c.dt,
   snap (c.fixation + measure + c.setDur + 2 * (measure * c.gain)) c.dt)

/-- Timestep-index set of the `fixation` epoch. -/
def rsg_fixIdx (c : RSGCfg) : Finset ℤ := epochIdx 0 c.fixation c.dt

/-- Timestep-index set of the `ready` epoch. -/
def rsg_readyIdx (c : RSGCfg) : Finset ℤ :=
  epochIdx c.fixation (c.fixation + c.ready) c.dt

/-- Timestep-index set of the `measure` epoch. -/
def rsg_measureIdx (c : RSGCfg) (measure : ℚ) : Finset ℤ :=
  epochIdx c.fixation (c.fixation + measure) c.dt

/-- Timestep-index set of the `set` epoch. -/
def rsg_setIdx (c : RSGCfg) (measure : ℚ) : Finset ℤ :=
  epochIdx (c.fixation + measure) (c.fixation + measure + c.setDur) c.dt

/-- Timestep-index set of the `production` epoch. -/
def rsg_prodIdx (c : RSGCfg) (measure : ℚ) : Finset ℤ :=
  epochIdx (c.fixation + measure + c.setDur)
    (c.fixation + measure + c.setDur + 2 * (measure * c.gain)) c.dt

/-- The trial's number of timesteps: the end index of the last
(`production`) epoch. -/
def rsg_numSteps (c : RSGCfg) (measure : ℚ) : ℤ :=
  roundIdx (c.fixation + measure + c.setDur + 2 * (measure * c.gain)) c.dt

/-- `t_prod = self.t - self.measure_1` (time from the end of the
`measure` epoch), then `eps = abs(t_prod - trial['production'])`. -/
def rsg_eps (c : RSGCfg) (measure t : ℚ) : ℚ :=
  |t - (rsg_measureSpan c measure).2 - measure * c.gain|

/-- `eps_threshold = 0.2*trial['production'] + 25`. -/
def rsg_thr (c : RSGCfg) (measure : ℚ) : ℚ := 1/5 * (measure * c.gain) + 25

/-- The ground-truth pair `info['gt']` computed by `ReadySetGo._step`
(readysetgo.py lines 100–127): starts as `zeros(2)`; the fixation
branch sets `gt[0] = 1`; the production branch sets `gt[1] = 1` when
`eps < dt/2 + 1` and `gt[0] = 1` otherwise; the `else` branch (not in
production) sets `gt[0] = 1`. -/
def rsg_gt (c : RSGCfg) (measure t : ℚ) : ℚ × ℚ :=
  let g0 : ℚ × ℚ := (0, 0)
  let g1 := if inSpan (rsg_fixSpan c) t then (1, g0.2) else g0
  if inSpan (rsg_prodSpan c measure) t then
    (if rsg_eps c measure t < c.dt / 2 + 1 then (g1.1, 1) else (1, g1.2))
  else (1, g1.2)

/-- The `new_trial` flag computed by `ReadySetGo._step`: in fixation a
non-fixate action (`self.actions[action] != -1`, i.e. `action ≠ 0`)
sets it to `self.abort`; in production `action == 1` sets it to
`True`. -/
def rsg_newTrial (c : RSGCfg) (measure t : ℚ) (action : Fin 2) : Bool :=
  let actions : List ℤ := [-1, 1]
  let nt1 := if inSpan (rsg_fixSpan c) t ∧ actions.getD action.val 0 ≠ -1
    then c.abort else false
  if inSpan (rsg_prodSpan c measure) t ∧ action.val = 1 then true else nt1

/-- The reward computed by `ReadySetGo._step`: in fixation a non-fixate
action earns `R_ABORTED`; in production, `action == 1` earns `R_FAIL`
when `eps > eps_threshold` and otherwise
`min((1 - eps/eps_threshold)**1.5, 0.1) * R_CORRECT`. -/
noncomputable def rsg_reward (c : RSGCfg) (measure t : ℚ) (action : Fin 2) : ℝ :=
  let actions : List ℤ := [-1, 1]
  let r1 : ℝ := if inSpan (rsg_fixSpan c) t ∧ actions.getD action.val 0 ≠ -1
    then (c.R_ABORTED : ℝ) else 0
  let eps := rsg_eps c measure t
  let thr := rsg_thr c measure
  if inSpan (rsg_prodSpan c measure) t ∧ action.val = 1 then
    (if thr < eps then (c.R_FAIL : ℝ)
     else min (((1 - eps / thr : ℚ) : ℝ) ^ (1.5 : ℝ)) (1/10) * (c.R_CORRECT : ℝ))
  else r1

/-- The observation row of `ReadySetGo._step`: `obs = zeros(3)`,
`obs[0] = 1` in fixation, `obs[1] = 1` in ready, `obs[2] = 1` in set. -/
def rsg_obs (c : RSGCfg) (measure t : ℚ) : List ℚ :=
  let o0 : List ℚ := [0, 0, 0]
  let o1 := if inSpan (rsg_fixSpan c) t then o0.set 0 1 else o0
  let o2 := if inSpan (rsg_readySpan c) t then o1.set 1 1 else o1
  if inSpan (rsg_setSpan c measure) t then o2.set 2 1 else o2

/-- `ReadySetGo._step` assembled: returns
`(obs, reward, False, {'new_trial': …, 'gt': …})`.  The reward lives
in `ℝ` (the `**1.5` power), so it is carried alongside the rational
`TaskOut`-style fields. -/
noncomputable def rsg_step (c : RSGCfg) (measure t : ℚ) (action : Fin 2) :
    (List ℚ × ℝ × Bool × List (String × DVal)) :=
  (rsg_obs c measure t, rsg_reward c measure t action, false,
    [("new_trial", DVal.bool (rsg_newTrial c measure t action)),
     ("gt", DVal.vec [(rsg_gt c measure t).1, (rsg_gt c measure t).2])])

/-! ## RDM (src/envs/rdm.py)

Class constants: `fixation = 750`, `stimulus_min = 80`,
`stimulus_mean = 330`, `stimulus_max = 1500`, `decision = 500`,
`tmax = 750 + 1500 + 500 = 2750`, rewards `R_ABORTED = -1`,
`R_CORRECT = 1`, `R_FAIL = 0`, `R_MISS = 0`, trial conditions
`left_rights = [-1, 1]` and `cohs = [0, 6.4, 12.8, 25.6, 51.2]`.
Inputs map to `FIXATION = 0, LEFT = 1, RIGHT = 2`, actions to
`FIXATE = 0, CHOOSE-LEFT = 1, CHOOSE-RIGHT = 2` (`tasktools.to_map`
enumerates names consecutively).

`self.t` is a timestep index advancing one per step; epoch membership
uses the index sets of `tasktools.get_epochs_idx`, modelled from the
spec §4.2 as in `epochIdx`. -/

structure RDMCfg where
  dt : ℚ
  stimulus_min : ℚ
  R_ABORTED : ℚ
  R_CORRECT : ℚ
  R_FAIL : ℚ
  R_MISS : ℚ
  p_stp : ℚ

/-- `RDM.__init__(dt=100)`: the one numeric adjustment is
`self.stimulus_min = np.max([self.stimulus_min, dt])` (rdm.py line 55).
`p_stp` is the base class's stochastic-continuation probability
(modelled from the spec §4.4; the `ngym` base is not in the
snapshot). -/
def rdmInit (dt p_stp : ℚ) : RDMCfg :=
  ⟨dt, max 80 dt, -1, 1, 0, 0, p_stp⟩

/-- `self.cohs`. -/
def rdmCohs : List ℚ := [0, 32/5, 64/5, 128/5, 256/5]

/-- `self.left_rights`. -/
def rdmLeftRights : List ℤ := [-1, 1]

/-- `self.tmax = fixation + stimulus_max + decision`. -/
def rdmTmax : ℚ := 750 + 1500 + 500

/-- Modelled from the spec §4.1 (Duration Sampler): the truncated
exponential draws a value with the given mean and clips it into
`[xmin, xmax]`; the raw stream value `u` stands for the (abstract)
exponential variate, scaled by the mean.  Stands in for the missing
`tasktools.truncated_exponential`. -/
def truncated_exponential (u mean xmin xmax : ℚ) : ℚ :=
  max xmin (min xmax (mean * u))

/-- The per-trial fields drawn by `RDM._new_trial`. -/
structure RDMTrial where
  stimulus : ℚ
  left_right : ℤ
  coh : ℚ

/-- `RDM._new_trial(rng, dt)` with no context: draws the stimulus
duration from the truncated exponential with
`(mean, xmin, xmax) = (stimulus_mean, self.stimulus_min,
stimulus_max)`, then `left_right` from `left_rights`, then `coh` from
`cohs`. -/
def rdm_new_trial (c : RDMCfg) (g : RNG) : RDMTrial × RNG :=
  let u := g.draw
  let stimulus := truncated_exponential u.1 330 c.stimulus_min 1500
  let lr := u.2.choice rdmLeftRights 0
  let coh := lr.2.choice rdmCohs 0
  (⟨stimulus, lr.1, coh.1⟩, coh.2)

/-- Index interval of RDM's `fixation` epoch, `(0, 750)` in physical
time. -/
def rdm_fixIdx (c : RDMCfg) : ℤ × ℤ := (roundIdx 0 c.dt, roundIdx 750 c.dt)

/-- Index interval of RDM's `stimulus` epoch,
`(750, 750 + stimulus)`. -/
def rdm_stimIdx (c : RDMCfg) (s : ℚ) : ℤ × ℤ :=
  (roundIdx 750 c.dt, roundIdx (750 + s) c.dt)

/-- Index interval of RDM's `decision` epoch,
`(750 + stimulus, 750 + stimulus + 500)`. -/
def rdm_decIdx (c : RDMCfg) (s : ℚ) : ℤ × ℤ :=
  (roundIdx (750 + s) c.dt, roundIdx (750 + s + 500) c.dt)

/-- Timestep-index set of RDM's `fixation` epoch. -/
def rdm_fixSet (c : RDMCfg) : Finset ℤ :=
  Finset.Ico (rdm_fixIdx c).1 (rdm_fixIdx c).2

/-- Timestep-index set of RDM's `stimulus` epoch. -/
def rdm_stimSet (c : RDMCfg) (s : ℚ) : Finset ℤ :=
  Finset.Ico (rdm_stimIdx c s).1 (rdm_stimIdx c s).2

/-- Timestep-index set of RDM's `decision` epoch. -/
def rdm_decSet (c : RDMCfg) (s : ℚ) : Finset ℤ :=
  Finset.Ico (rdm_decIdx c s).1 (rdm_decIdx c s).2

/-- `self.scale(coh) = (1 + coh/100)/2`. -/
def rdm_scale (coh : ℚ) : ℚ := (1 + coh / 100) / 2

/-- Modelled from the spec §4.4 (Step Driver), standing in for the
missing `tasktools.new_trial(t, tmax, dt, continue, R_MISS, num_tr,
perf, reward, p_stp)`: when the policy said stop, draw `u` and either
hold the terminal observation one extra step (probability `p_stp`) or
start a new trial; when time reaches the timeline's last index with
the trial still running, terminate as a miss with reward `R_MISS`;
otherwise advance `t` by one.  Returns
`(reward, new_trial, t, num_tr, rng)`; the `perf` bookkeeping is not
specified and is not modelled. -/
def tasktools_new_trial (t tmaxIdx : ℤ) (cont : Bool) (r_miss reward p_stp : ℚ)
    (num_tr : ℕ) (g : RNG) : ℚ × Bool × ℤ × ℕ × RNG :=
  if cont = false then
    let u := g.draw
    if u.1 < p_stp then (reward, false, t, num_tr, u.2)
    else (reward, true, 0, num_tr + 1, u.2)
  else if tmaxIdx ≤ t + 1 then (r_miss, true, 0, num_tr + 1, g)
  else (reward, false, t + 1, num_tr, g)

/-- The mutable state of an `RDM` environment between steps. -/
structure RDMState where
  trial : RDMTrial
  t : ℤ
  num_tr : ℕ
  rng : RNG

/-- The `status` dictionary built by `RDM.step` (rdm.py lines
119–146): starts as `{'continue': True}`; an abort sets `continue` to
`False`; a choice in the decision epoch sets `continue`, `choice`,
`t_choice` and `correct`. -/
def rdm_status (c : RDMCfg) (tr : RDMTrial) (t : ℤ) (a : Fin 3) :
    List (String × DVal) :=
  if ¬ inIdx (rdm_decIdx c tr.stimulus) (t - 1) then
    (if a.val ≠ 0 then [("continue", DVal.bool false)]
     else [("continue", DVal.bool true)])
  else if a.val = 1 then
    [("continue", DVal.bool false), ("choice", DVal.str "L"),
     ("t_choice", DVal.int (t - 1)),
     ("correct", DVal.bool (decide (tr.left_right < 0)))]
  else if a.val = 2 then
    [("continue", DVal.bool false), ("choice", DVal.str "R"),
     ("t_choice", DVal.int (t - 1)),
     ("correct", DVal.bool (decide (0 < tr.left_right)))]
  else [("continue", DVal.bool true)]

/-- The reward assigned by the policy part of `RDM.step` (before the
driver may overwrite it with a miss): `R_ABORTED` for a non-fixate
action outside the decision epoch, and for a choice inside it
`R_CORRECT`/`R_FAIL` according to the sign of `left_right`. -/
def rdm_policyReward (c : RDMCfg) (tr : RDMTrial) (t : ℤ) (a : Fin 3) : ℚ :=
  if ¬ inIdx (rdm_decIdx c tr.stimulus) (t - 1) then
    (if a.val ≠ 0 then c.R_ABORTED else 0)
  else if a.val = 1 then
    (if tr.left_right < 0 then c.R_CORRECT else c.R_FAIL)
  else if a.val = 2 then
    (if 0 < tr.left_right then c.R_CORRECT else c.R_FAIL)
  else 0

/-- The action that matches RDM's ground truth: `CHOOSE-LEFT` (1) when
`left_right < 0`, else `CHOOSE-RIGHT` (2) — `step` marks a choice
`correct` by exactly these sign tests. -/
def rdm_gtAction (lr : ℤ) : Fin 3 := if lr < 0 then 1 else 2

/-- Whether the policy part of `RDM.step` leaves `status['continue']`
true. -/
def rdm_contFlag (c : RDMCfg) (tr : RDMTrial) (t : ℤ) (a : Fin 3) : Bool :=
  if ¬ inIdx (rdm_decIdx c tr.stimulus) (t - 1) then a.val = 0
  else ¬ (a.val = 1 ∨ a.val = 2)

/-- The observation row of `RDM.step` (rdm.py lines 148–165):
`obs = zeros(3)`; `obs[FIXATION] = 1` during fixation or stimulus;
during stimulus the `high` channel (LEFT when `left_right < 0`, else
RIGHT) gets `scale(+coh)` plus noise and the `low` channel
`scale(-coh)` plus noise.  Each noise term is one rng draw, standing
for `normal(scale=sigma)/sqrt(dt)` (the Gaussian sampler is abstract
in this embedding, so the `/sqrt(dt)` scaling is folded into the
draw).  Returns the row and the advanced rng. -/
def rdm_obs (c : RDMCfg) (tr : RDMTrial) (t : ℤ) (g : RNG) : List ℚ × RNG :=
  let inFix := inIdx (rdm_fixIdx c) t
  let inStim := inIdx (rdm_stimIdx c tr.stimulus) t
  let high : ℕ := if tr.left_right < 0 then 1 else 2
  let low : ℕ := if tr.left_right < 0 then 2 else 1
  let o0 : List ℚ := [0, 0, 0]
  let o1 := if inFix ∨ inStim then o0.set 0 1 else o0
  if inStim then
    let n1 := g.draw
    let n2 := n1.2.draw
    ((o1.set high (rdm_scale tr.coh + n1.1)).set low
       (rdm_scale (-tr.coh) + n2.1), n2.2)
  else (o1, g)

/-- `RDM.step(action)`: policy reward and status, observation with
noise, then the trial driver (`tasktools.new_trial`) and, when the
trial ended, a fresh `_new_trial`.  Returns the new state and
`(obs, reward, done, status)` with `done = False`. -/
def rdm_step (c : RDMCfg) (st : RDMState) (a : Fin 3) : RDMState × TaskOut :=
  let reward1 := rdm_policyReward c st.trial st.t a
  let status := rdm_status c st.trial st.t a
  let ob := rdm_obs c st.trial st.t st.rng
  let drv := tasktools_new_trial st.t (ceilIdx rdmTmax c.dt)
    (rdm_contFlag c st.trial st.t a) c.R_MISS reward1 c.p_stp st.num_tr ob.2
  let reward2 := drv.1
  let ntr := drv.2.1
  let t' := drv.2.2.1
  let num_tr' := drv.2.2.2.1
  let g' := drv.2.2.2.2
  let next := if ntr then rdm_new_trial c g' else (st.trial, g')
  (⟨next.1, t', num_tr', next.2⟩, ⟨ob.1, reward2, false, status⟩)

/-- A whole run of `RDM`: fold `rdm_step` over an action sequence,
collecting each step's `(obs, reward, done, status)` output. -/
def rdm_run (c : RDMCfg) : RDMState → List (Fin 3) → List TaskOut
  | _, [] => []
  | st, a :: rest =>
    let s := rdm_step c st a
    s.2 :: rdm_run c s.1 rest

/-! ## nalt_PerceptualDecisionMaking
(src/neurogym/envs/nalt_perceptualdecisionmaking.py)

`__init__(dt=100, …, n_ch=3)`: choices `1..n`, rewards
`{'abort': -0.1, 'correct': +1., 'fail': 0}`, timing
`fixation: constant 500`, `stimulus: truncated_exponential
[330, 80, 1500]`, `decision: constant 500`, `abort = False`.
`new_trial` declares the three periods consecutively
(`add_period([...], after=0, last_period=True)` of the missing
`PeriodEnv` base, modelled from the spec §4.2), draws `ground_truth`
from the choices and `coh` from the cohs, and writes the stimulus
vector.  `self.t` advances one timestep index per step. -/

structure NAltCfg where
  n : ℕ
  dt : ℚ
  fixation : ℚ
  decision : ℚ
  r_abort : ℚ
  r_correct : ℚ
  r_fail : ℚ
  abort : Bool

/-- `nalt_PerceptualDecisionMaking.__init__` with the default rewards,
timing constants and `abort = False`. -/
def naltInit (dt : ℚ) (n_ch : ℕ) : NAltCfg :=
  ⟨n_ch, dt, 500, 500, -1/10, 1, 0, false⟩

/-- Index interval of the `fixation` period. -/
def nalt_fixIdx (c : NAltCfg) : ℤ × ℤ := (0, roundIdx c.fixation c.dt)

/-- Index interval of the `stimulus` period (`stimDur` is the sampled
truncated-exponential duration of this trial). -/
def nalt_stimIdx (c : NAltCfg) (stimDur : ℚ) : ℤ × ℤ :=
  (roundIdx c.fixation c.dt, roundIdx (c.fixation + stimDur) c.dt)

/-- Index interval of the `decision` period. -/
def nalt_decIdx (c : NAltCfg) (stimDur : ℚ) : ℤ × ℤ :=
  (roundIdx (c.fixation + stimDur) c.dt,
   roundIdx (c.fixation + stimDur + c.decision) c.dt)

/-- The noise-free stimulus vector written by `new_trial` (lines
71–73): `stim = np.ones(n) * (1 - coh/100)/2` followed by
`stim[ground_truth - 1] = (1 + coh/100)/2`. -/
def nalt_stim (n : ℕ) (coh : ℚ) (ground_truth : ℕ) : List ℚ :=
  (List.replicate n ((1 - coh / 100) / 2)).set (ground_truth - 1)
    ((1 + coh / 100) / 2)

/-- The ground truth exposed at timestep `t`
(`set_groundtruth(ground_truth, 'decision')`; unset steps default to
the fixate action `0`, spec §4.3). -/
def nalt_gtNow (c : NAltCfg) (stimDur : ℚ) (ground_truth : ℕ) (t : ℤ) : ℕ :=
  if inIdx (nalt_decIdx c stimDur) t then ground_truth else 0

/-- The `new_trial` flag computed by
`nalt_PerceptualDecisionMaking._step` (lines 91–110): in fixation a
non-fixate action sets it to `self.abort`; in decision a non-fixate
action sets it to `True`. -/
def nalt_newTrial (c : NAltCfg) (stimDur : ℚ) (t : ℤ) (action : ℕ) : Bool :=
  if inIdx (nalt_fixIdx c) t then (if action ≠ 0 then c.abort else false)
  else if inIdx (nalt_decIdx c stimDur) t then decide (action ≠ 0)
  else false

/-- The reward computed by `nalt_PerceptualDecisionMaking._step`: the
abort reward for a non-fixate action in fixation and, in decision,
the correct/fail reward according to whether the action equals the
current ground truth. -/
def nalt_reward (c : NAltCfg) (stimDur : ℚ) (ground_truth : ℕ) (t : ℤ)
    (action : ℕ) : ℚ :=
  if inIdx (nalt_fixIdx c) t then (if action ≠ 0 then c.r_abort else 0)
  else if inIdx (nalt_decIdx c stimDur) t then
    (if action ≠ 0 then
      (if action = nalt_gtNow c stimDur ground_truth t then c.r_correct
       else c.r_fail)
     else 0)
  else 0

/-- `nalt_PerceptualDecisionMaking._step` assembled: the observation
row is read off the precomputed buffer (`self.ob_now`), passed in as
`obRow`; returns `(obs, reward, False, {'new_trial': …, 'gt': …})`. -/
def nalt_step (c : NAltCfg) (stimDur : ℚ) (ground_truth : ℕ)
    (obRow : List ℚ) (t : ℤ) (action : ℕ) : TaskOut :=
  ⟨obRow, nalt_reward c stimDur ground_truth t action, false,
    [("new_trial", DVal.bool (nalt_newTrial c stimDur t action)),
     ("gt", DVal.int (nalt_gtNow c stimDur ground_truth t))]⟩

/-! ## DelayedMatchCategory (src/neurogym/envs/delaymatchcategory.py)

`__init__(dt=100, …)`: choices `[1, 2]` (match, non-match), rewards
`{'abort': -0.1, 'correct': +1., 'fail': 0}`, timing
`fixation: 500`, `sample: 650`, `first_delay: 1000`, `test: 650`,
`abort = False`.  `new_trial` draws `ground_truth` from `[1, 2]` and
`sample_category` from `[0, 1]`, then
`sample_theta = (sample_category + rng.random()) * pi` and
`test_theta = (test_category + rng.random()) * pi` with
`test_category = 1 - sample_category` when `ground_truth = 2`; the
periods are declared consecutively and noise is drawn for the
`sample` and `test` periods.  Angles are tracked by their coefficient
`theta / pi`, which determines `cos theta` and `sin theta`. -/

structure DMCCfg where
  dt : ℚ
  fixation : ℚ
  sample : ℚ
  first_delay : ℚ
  test : ℚ
  r_abort : ℚ
  r_correct : ℚ
  r_fail : ℚ
  abort : Bool

/-- `DelayedMatchCategory.__init__` with the default rewards, timing
and `abort = False`. -/
def dmcInit (dt : ℚ) : DMCCfg := ⟨dt, 500, 650, 1000, 650, -1/10, 1, 0, false⟩

/-- Index interval of the `fixation` period. -/
def dmc_fixIdx (c : DMCCfg) : ℤ × ℤ := (0, roundIdx c.fixation c.dt)

/-- Index interval of the `sample` period. -/
def dmc_sampleIdx (c : DMCCfg) : ℤ × ℤ :=
  (roundIdx c.fixation c.dt, roundIdx (c.fixation + c.sample) c.dt)

/-- Index interval of the `first_delay` period. -/
def dmc_delayIdx (c : DMCCfg) : ℤ × ℤ :=
  (roundIdx (c.fixation + c.sample) c.dt,
   roundIdx (c.fixation + c.sample + c.first_delay) c.dt)

/-- Index interval of the `test` period (the last period). -/
def dmc_testIdx (c : DMCCfg) : ℤ × ℤ :=
  (roundIdx (c.fixation + c.sample + c.first_delay) c.dt,
   roundIdx (c.fixation + c.sample + c.first_delay + c.test) c.dt)

/-- The per-trial fields drawn by `DelayedMatchCategory.new_trial`,
with the two stimulus angles tracked by their coefficient
`theta / pi`. -/
structure DMCTrial where
  ground_truth : ℤ
  sample_category : ℤ
  sampleTheta : ℚ
  testTheta : ℚ

/-- `DelayedMatchCategory.new_trial` (lines 58–102): the rng draws, in
order, `ground_truth`, `sample_category`, the uniform for
`sample_theta`, the uniform for `test_theta`, then (via `add_randn`,
modelled from the spec §4.3: one i.i.d. sample per (timestep, channel)
pair in scope, 3 channels) the noise for the `sample` and `test`
periods.  Returns the trial, the noise draws and the advanced rng. -/
def dmc_new_trial (c : DMCCfg) (g : RNG) : DMCTrial × List ℚ × RNG :=
  let gt := g.choice [(1 : ℤ), 2] 0
  let cat := gt.2.choice [(0 : ℤ), 1] 0
  let u1 := cat.2.draw
  let sampleTheta : ℚ := (cat.1 : ℚ) + u1.1
  let testCat : ℤ := if gt.1 = 2 then 1 - cat.1 else cat.1
  let u2 := u1.2.draw
  let testTheta : ℚ := (testCat : ℚ) + u2.1
  let nSample := ((dmc_sampleIdx c).2 - (dmc_sampleIdx c).1).toNat
  let nTest := ((dmc_testIdx c).2 - (dmc_testIdx c).1).toNat
  let noise := u2.2.drawN ((nSample + nTest) * 3)
  (⟨gt.1, cat.1, sampleTheta, testTheta⟩, noise.1, noise.2)

/-- The ground truth exposed at timestep `t`
(`set_groundtruth(ground_truth, 'test')`). -/
def dmc_gtNow (c : DMCCfg) (ground_truth : ℤ) (t : ℤ) : ℤ :=
  if inIdx (dmc_testIdx c) t then ground_truth else 0

/-- The `new_trial` flag computed by `DelayedMatchCategory._step`
(lines 104–134): in fixation a non-fixate action sets it to
`self.abort`; in the `test` period a non-fixate action sets it to
`True`. -/
def dmc_newTrial (c : DMCCfg) (t : ℤ) (action : ℤ) : Bool :=
  if inIdx (dmc_fixIdx c) t then (if action ≠ 0 then c.abort else false)
  else if inIdx (dmc_testIdx c) t then decide (action ≠ 0)
  else false

/-- The reward computed by `DelayedMatchCategory._step`: the abort
reward for a non-fixate action in fixation and, in `test`, the
correct/fail reward according to whether the action equals the
current ground truth. -/
def dmc_reward (c : DMCCfg) (ground_truth : ℤ) (t : ℤ) (action : ℤ) : ℚ :=
  if inIdx (dmc_fixIdx c) t then (if action ≠ 0 then c.r_abort else 0)
  else if inIdx (dmc_testIdx c) t then
    (if action ≠ 0 then
      (if action = dmc_gtNow c ground_truth t then c.r_correct else c.r_fail)
     else 0)
  else 0

/-- `DelayedMatchCategory._step` assembled: the observation row is
read off the precomputed buffer, passed in as `obRow`. -/
def dmc_step (c : DMCCfg) (ground_truth : ℤ) (obRow : List ℚ) (t : ℤ)
    (action : ℤ) : TaskOut :=
  ⟨obRow, dmc_reward c ground_truth t action, false,
    [("new_trial", DVal.bool (dmc_newTrial c t action)),
     ("gt", DVal.int (dmc_gtNow c ground_truth t))]⟩

/-! ## Helper lemmas about the timeline discretisation -/

lemma roundIdx_mono {a b dt : ℚ} (hdt : 0 < dt) (h : a ≤ b) :
    roundIdx a dt ≤ roundIdx b dt := by
  unfold roundIdx
  exact Int.floor_le_floor (by linarith [(div_le_div_iff_of_pos_right hdt).mpr h])

lemma roundIdx_zero (dt : ℚ) : roundIdx 0 dt = 0 := by
  unfold roundIdx
  rw [zero_div, zero_add]
  rw [Int.floor_eq_zero_iff]
  constructor <;> norm_num

lemma roundIdx_nonneg {a dt : ℚ} (hdt : 0 < dt) (h : 0 ≤ a) :
    0 ≤ roundIdx a dt := by
  have := roundIdx_mono hdt h
  rwa [roundIdx_zero] at this

lemma roundIdx_le_ceilIdx {x y dt : ℚ} (hdt : 0 < dt) (h : x ≤ y) :
    roundIdx x dt ≤ ceilIdx y dt := by
  unfold roundIdx ceilIdx
  have h1 : (⌊x / dt + 1/2⌋ : ℚ) ≤ x / dt + 1/2 := Int.floor_le _
  have h2 : y / dt ≤ (⌈y / dt⌉ : ℚ) := Int.le_ceil _
  have h3 : x / dt ≤ y / dt := (div_le_div_iff_of_pos_right hdt).mpr h
  have h4 : (⌊x / dt + 1/2⌋ : ℚ) < (⌈y / dt⌉ : ℚ) + 1 := by linarith
  have h5 : ⌊x / dt + 1/2⌋ < ⌈y / dt⌉ + 1 := by exact_mod_cast h4
  omega

lemma snap_mono {a b dt : ℚ} (hdt : 0 < dt) (h : a ≤ b) :
    snap a dt ≤ snap b dt := by
  unfold snap
  have := roundIdx_mono hdt h
  exact mul_le_mul_of_nonneg_right (by exact_mod_cast this) hdt.le

lemma snap_zero (dt : ℚ) : snap 0 dt = 0 := by
  unfold snap
  rw [roundIdx_zero]
  norm_num

lemma roundIdx_eq {a dt : ℚ} {n : ℤ} (h1 : (n : ℚ) ≤ a / dt + 1/2)
    (h2 : a / dt + 1/2 < n + 1) : roundIdx a dt = n := by
  unfold roundIdx
  exact Int.floor_eq_iff.mpr ⟨h1, by exact_mod_cast h2⟩

lemma ceilIdx_eq {a dt : ℚ} {n : ℤ} (h1 : (n : ℚ) - 1 < a / dt)
    (h2 : a / dt ≤ (n : ℚ)) : ceilIdx a dt = n := by
  unfold ceilIdx
  exact Int.ceil_eq_iff.mpr ⟨h1, h2⟩

lemma ico_disjoint {a b c d : ℤ} (h : b ≤ c) :
    Disjoint (Finset.Ico a b) (Finset.Ico c d) := by
  rw [Finset.disjoint_left]
  intro x hx hx'
  rw [Finset.mem_Ico] at hx hx'
  omega

/-- When the policy said stop (`continue = False`), the trial driver
returns the policy's reward unchanged (both the hold and the
new-trial branch). -/
lemma ttnt_stop_reward (t tm : ℤ) (r_miss reward p : ℚ) (n : ℕ) (g : RNG) :
    (tasktools_new_trial t tm false r_miss reward p n g).1 = reward := by
  unfold tasktools_new_trial
  simp only [eq_self_iff_true, if_true]
  split <;> rfl

/-! ## C1: the partition property of declared period sequences -/

/-- C1, counterexample.  The claim asserts that every trial's declared
periods have pairwise disjoint timestep sets.  In `ReadySetGo._new_trial`
(with the default construction `dt=80, timing=(500,83,83), gain=1` and
the legal measure draw `760`) the `ready` and `measure` epochs are both
declared `after='fixation'`, so their timestep sets intersect (both
contain index 6): the declared periods are not pairwise disjoint. -/
theorem c1_counterexample :
    ¬ Disjoint (rsg_readyIdx (rsgInit 80 (500, 83, 83) 1))
      (rsg_measureIdx (rsgInit 80 (500, 83, 83) 1) 760) := by
  have h1 : roundIdx (500 : ℚ) 80 = 6 := roundIdx_eq (by norm_num) (by norm_num)
  have h2 : roundIdx (500 + 83 : ℚ) 80 = 7 :=
    roundIdx_eq (by norm_num) (by norm_num)
  have h3 : roundIdx (500 + 760 : ℚ) 80 = 16 :=
    roundIdx_eq (by norm_num) (by norm_num)
  rw [Finset.not_disjoint_iff]
  refine ⟨6, ?_, ?_⟩
  · show (6 : ℤ) ∈ epochIdx 500 (500 + 83) 80
    unfold epochIdx
    rw [Finset.mem_Ico, h1, h2]
    norm_num
  · show (6 : ℤ) ∈ epochIdx 500 (500 + 760) 80
    unfold epochIdx
    rw [Finset.mem_Ico, h1, h3]
    norm_num

/-- C1, amended: (a) in `ReadySetGo._new_trial` the four epochs
`fixation`, `measure`, `set`, `production` are pairwise disjoint and
their union — equally the union of all five declared epochs, the
`ready` epoch being contained in `measure` — is exactly
`{0, …, N-1}` where `N` is the end index of the terminal `production`
epoch; (b) in `RDM._new_trial` the `fixation`, `stimulus`, `decision`
epochs are pairwise disjoint and their union is the initial segment
`{0, …, E-1}` ending at the decision end index `E`, which is at most —
and, whenever the drawn stimulus is shorter than `stimulus_max`, may
fall strictly short of — the `tmax`-based timeline length (e.g.
`E = 16 < 28` for `dt = 100` and stimulus `330`). -/
theorem c1_amended (c : RSGCfg) (m : ℚ) (hdt : 0 < c.dt)
    (hf : 0 ≤ c.fixation) (hr : 0 ≤ c.ready) (hrm : c.ready ≤ m)
    (hs : 0 ≤ c.setDur) (hmg : 0 ≤ m * c.gain)
    (c' : RDMCfg) (s : ℚ) (hdt' : 0 < c'.dt) (hs0 : 0 ≤ s)
    (hsmax : s ≤ 1500) :
    (Disjoint (rsg_fixIdx c) (rsg_measureIdx c m) ∧
     Disjoint (rsg_measureIdx c m) (rsg_setIdx c m) ∧
     Disjoint (rsg_setIdx c m) (rsg_prodIdx c m) ∧
     Disjoint (rsg_fixIdx c) (rsg_setIdx c m) ∧
     Disjoint (rsg_fixIdx c) (rsg_prodIdx c m) ∧
     Disjoint (rsg_measureIdx c m) (rsg_prodIdx c m)) ∧
    rsg_readyIdx c ⊆ rsg_measureIdx c m ∧
    rsg_fixIdx c ∪ rsg_readyIdx c ∪ rsg_measureIdx c m ∪ rsg_setIdx c m ∪
      rsg_prodIdx c m = Finset.Ico 0 (rsg_numSteps c m) ∧
    (Disjoint (rdm_fixSet c') (rdm_stimSet c' s) ∧
     Disjoint (rdm_stimSet c' s) (rdm_decSet c' s) ∧
     Disjoint (rdm_fixSet c') (rdm_decSet c' s)) ∧
    rdm_fixSet c' ∪ rdm_stimSet c' s ∪ rdm_decSet c' s =
      Finset.Ico 0 (rdm_decIdx c' s).2 ∧
    (rdm_decIdx c' s).2 ≤ ceilIdx rdmTmax c'.dt ∧
    (rdm_decIdx (rdmInit 100 0) 330).2 < ceilIdx rdmTmax (rdmInit 100 0).dt := by
  have hrm' : 0 ≤ m := hr.trans hrm
  have e1 : roundIdx 0 c.dt ≤ roundIdx c.fixation c.dt :=
    roundIdx_mono hdt hf
  have e2 : roundIdx c.fixation c.dt ≤ roundIdx (c.fixation + m) c.dt :=
    roundIdx_mono hdt (by linarith)
  have e3 : roundIdx (c.fixation + m) c.dt ≤
      roundIdx (c.fixation + m + c.setDur) c.dt :=
    roundIdx_mono hdt (by linarith)
  have e4 : roundIdx (c.fixation + m + c.setDur) c.dt ≤
      roundIdx (c.fixation + m + c.setDur + 2 * (m * c.gain)) c.dt :=
    roundIdx_mono hdt (by linarith)
  have f1 : roundIdx 0 c'.dt ≤ roundIdx 750 c'.dt :=
    roundIdx_mono hdt' (by norm_num)
  have f2 : roundIdx 750 c'.dt ≤ roundIdx (750 + s) c'.dt :=
    roundIdx_mono hdt' (by linarith)
  have f3 : roundIdx (750 + s) c'.dt ≤ roundIdx (750 + s + 500) c'.dt :=
    roundIdx_mono hdt' (by linarith)
  refine ⟨⟨?_, ?_, ?_, ?_, ?_, ?_⟩, ?_, ?_, ⟨?_, ?_, ?_⟩, ?_, ?_, ?_⟩
  · exact ico_disjoint (le_refl _)
  · exact ico_disjoint (le_refl _)
  · exact ico_disjoint (le_refl _)
  · exact ico_disjoint e2
  · exact ico_disjoint (e2.trans e3)
  · exact ico_disjoint e3
  · exact Finset.Ico_subset_Ico (le_refl _)
      (roundIdx_mono hdt (by linarith))
  · show Finset.Ico _ _ ∪ Finset.Ico _ _ ∪ Finset.Ico _ _ ∪ Finset.Ico _ _ ∪
      Finset.Ico _ _ = _
    rw [Finset.union_assoc (Finset.Ico (roundIdx 0 c.dt) _),
      Finset.union_eq_right.mpr (Finset.Ico_subset_Ico (le_refl _)
        (roundIdx_mono hdt (by linarith)))]
    rw [Finset.Ico_union_Ico_eq_Ico e1 e2, Finset.Ico_union_Ico_eq_Ico
      (e1.trans e2) e3, Finset.Ico_union_Ico_eq_Ico
      ((e1.trans e2).trans e3) e4]
    rw [roundIdx_zero]
    rfl
  · exact ico_disjoint (le_refl _)
  · exact ico_disjoint (le_refl _)
  · exact ico_disjoint f2
  · show Finset.Ico (roundIdx 0 c'.dt) (roundIdx 750 c'.dt) ∪
      Finset.Ico (roundIdx 750 c'.dt) (roundIdx (750 + s) c'.dt) ∪
      Finset.Ico (roundIdx (750 + s) c'.dt) (roundIdx (750 + s + 500) c'.dt) =
      Finset.Ico 0 (roundIdx (750 + s + 500) c'.dt)
    rw [Finset.Ico_union_Ico_eq_Ico f1 f2,
      Finset.Ico_union_Ico_eq_Ico (f1.trans f2) f3, roundIdx_zero]
  · exact roundIdx_le_ceilIdx hdt' (by unfold rdmTmax; linarith)
  · have g1 : roundIdx (750 + 330 + 500 : ℚ) 100 = 16 :=
      roundIdx_eq (by norm_num) (by norm_num)
    have g2 : ceilIdx rdmTmax 100 = 28 :=
      ceilIdx_eq (by norm_num [rdmTmax]) (by norm_num [rdmTmax])
    show roundIdx (750 + 330 + 500 : ℚ) 100 < ceilIdx rdmTmax 100
    rw [g1, g2]
    norm_num

/-! ## C2: abort behaviour during pre-decision periods -/

/-- C2, counterexample.  The claim asserts the abort penalty for any
non-fixate action during any pre-decision period, including the
stimulus period.  In `nalt_PerceptualDecisionMaking._step` (defaults
`dt = 100`, `n_ch = 3`, stimulus duration 330, ground truth 2),
timestep 6 lies in the stimulus period, yet action 1 yields reward
`0`, not the configured abort penalty `-0.1`, and the trial simply
continues. -/
theorem c2_counterexample :
    inIdx (nalt_stimIdx (naltInit 100 3) 330) 6 ∧
    nalt_reward (naltInit 100 3) 330 2 6 1 = 0 ∧
    nalt_newTrial (naltInit 100 3) 330 6 1 = false ∧
    (naltInit 100 3).r_abort = -1/10 ∧ ((0 : ℚ) ≠ -1/10) := by
  have e5 : roundIdx (500 : ℚ) 100 = 5 :=
    roundIdx_eq (by norm_num) (by norm_num)
  have e8 : roundIdx (500 + 330 : ℚ) 100 = 8 :=
    roundIdx_eq (by norm_num) (by norm_num)
  have hfix : nalt_fixIdx (naltInit 100 3) = (0, 5) := by
    show ((0 : ℤ), roundIdx (500 : ℚ) 100) = (0, 5)
    rw [e5]
  have hstim : nalt_stimIdx (naltInit 100 3) 330 = (5, 8) := by
    show (roundIdx (500 : ℚ) 100, roundIdx (500 + 330 : ℚ) 100) = (5, 8)
    rw [e5, e8]
  have hdec1 : (nalt_decIdx (naltInit 100 3) 330).1 = 8 := by
    show roundIdx (500 + 330 : ℚ) 100 = 8
    exact e8
  have nf : ¬ inIdx (nalt_fixIdx (naltInit 100 3)) 6 := by
    rw [hfix]
    exact fun h => absurd h.2 (by norm_num)
  have nd : ¬ inIdx (nalt_decIdx (naltInit 100 3) 330) 6 := by
    intro h
    have := h.1
    rw [hdec1] at this
    norm_num at this
  refine ⟨?_, ?_, ?_, rfl, by norm_num⟩
  · rw [hstim]
    exact ⟨by norm_num, by norm_num⟩
  · unfold nalt_reward
    rw [if_neg nf, if_neg nd]
  · unfold nalt_newTrial
    rw [if_neg nf, if_neg nd]

/-- C2, amended: the abort penalty applies exactly to non-fixate
actions during the *fixation* period (for the three `PeriodEnv`-style
tasks) or, in `RDM`, at any timestep outside the decision epoch; when
it applies, the trial ends iff the task's abort flag is set (`RDM`,
which has no flag, always ends, signalling `continue = False`).
During `nalt`'s stimulus period and `DelayedMatchCategory`'s sample
and first-delay periods, a non-fixate action earns reward `0` and the
trial simply continues. -/
theorem c2_amended :
    (∀ (c : NAltCfg) (sd : ℚ) (gt : ℕ) (t : ℤ) (a : ℕ),
       inIdx (nalt_fixIdx c) t → a ≠ 0 →
       nalt_reward c sd gt t a = c.r_abort ∧
       nalt_newTrial c sd t a = c.abort) ∧
    (∀ (c : NAltCfg) (sd : ℚ) (gt : ℕ) (t : ℤ) (a : ℕ),
       inIdx (nalt_stimIdx c sd) t →
       nalt_reward c sd gt t a = 0 ∧ nalt_newTrial c sd t a = false) ∧
    (∀ (c : DMCCfg) (gt t a : ℤ),
       inIdx (dmc_fixIdx c) t → a ≠ 0 →
       dmc_reward c gt t a = c.r_abort ∧ dmc_newTrial c t a = c.abort) ∧
    (∀ (c : DMCCfg) (gt t a : ℤ), 0 < c.dt → 0 ≤ c.sample →
       0 ≤ c.first_delay →
       inIdx (dmc_sampleIdx c) t ∨ inIdx (dmc_delayIdx c) t →
       dmc_reward c gt t a = 0 ∧ dmc_newTrial c t a = false) ∧
    (∀ (c : RSGCfg) (m t : ℚ) (a : Fin 2), 0 < c.dt → 0 ≤ m → 0 ≤ c.setDur →
       inSpan (rsg_fixSpan c) t → a.val = 1 →
       rsg_reward c m t a = (c.R_ABORTED : ℝ) ∧
       rsg_newTrial c m t a = c.abort) ∧
    (∀ (c : RDMCfg) (st : RDMState) (a : Fin 3),
       ¬ inIdx (rdm_decIdx c st.trial.stimulus) (st.t - 1) → a.val ≠ 0 →
       (rdm_step c st a).2.reward = c.R_ABORTED ∧
       (rdm_step c st a).2.info = [("continue", DVal.bool false)]) := by
  refine ⟨?_, ?_, ?_, ?_, ?_, ?_⟩
  · intro c sd gt t a hf ha
    constructor
    · unfold nalt_reward
      rw [if_pos hf, if_pos ha]
    · unfold nalt_newTrial
      rw [if_pos hf, if_pos ha]
  · intro c sd gt t a hst
    have nf : ¬ inIdx (nalt_fixIdx c) t := fun h => absurd h.2 (not_lt.mpr hst.1)
    have nd : ¬ inIdx (nalt_decIdx c sd) t := fun h => absurd hst.2 (not_lt.mpr h.1)
    constructor
    · unfold nalt_reward
      rw [if_neg nf, if_neg nd]
    · unfold nalt_newTrial
      rw [if_neg nf, if_neg nd]
  · intro c gt t a hf ha
    constructor
    · unfold dmc_reward
      rw [if_pos hf, if_pos ha]
    · unfold dmc_newTrial
      rw [if_pos hf, if_pos ha]
  · intro c gt t a hdt hsam hdel hst
    have m1 : roundIdx c.fixation c.dt ≤
        roundIdx (c.fixation + c.sample) c.dt :=
      roundIdx_mono hdt (by linarith)
    have m2 : roundIdx (c.fixation + c.sample) c.dt ≤
        roundIdx (c.fixation + c.sample + c.first_delay) c.dt :=
      roundIdx_mono hdt (by linarith)
    have nf : ¬ inIdx (dmc_fixIdx c) t := by
      intro h
      rcases hst with hs | hs
      · exact absurd h.2 (not_lt.mpr hs.1)
      · exact absurd h.2 (not_lt.mpr (le_trans m1 hs.1))
    have nt : ¬ inIdx (dmc_testIdx c) t := by
      intro h
      rcases hst with hs | hs
      · exact absurd h.1 (not_le.mpr (lt_of_lt_of_le hs.2 m2))
      · exact absurd h.1 (not_le.mpr hs.2)
    constructor
    · unfold dmc_reward
      rw [if_neg nf, if_neg nt]
    · unfold dmc_newTrial
      rw [if_neg nf, if_neg nt]
  · intro c m t a hdt hm hs hf ha
    have hprod : ¬ (inSpan (rsg_prodSpan c m) t ∧ a.val = 1) := by
      intro h
      have h1 : snap c.fixation c.dt ≤
          snap (c.fixation + m + c.setDur) c.dt :=
        snap_mono hdt (by linarith)
      exact absurd h.1.1 (not_le.mpr (lt_of_lt_of_le hf.2 h1))
    have hact : (List.getD [(-1 : ℤ), 1] a.val 0 ≠ -1) := by
      rw [ha]
      decide
    constructor
    · simp only [rsg_reward]
      rw [if_neg hprod, if_pos ⟨hf, hact⟩]
    · simp only [rsg_newTrial]
      rw [if_neg hprod, if_pos ⟨hf, hact⟩]
  · intro c st a hdec ha
    have hc : rdm_contFlag c st.trial st.t a = false := by
      unfold rdm_contFlag
      rw [if_pos hdec]
      exact decide_eq_false ha
    have hr : rdm_policyReward c st.trial st.t a = c.R_ABORTED := by
      unfold rdm_policyReward
      rw [if_pos hdec, if_pos ha]
    have hst : rdm_status c st.trial st.t a = [("continue", DVal.bool false)] := by
      unfold rdm_status
      rw [if_pos hdec, if_pos ha]
    constructor
    · show (tasktools_new_trial st.t (ceilIdx rdmTmax c.dt)
        (rdm_contFlag c st.trial st.t a) c.R_MISS
        (rdm_policyReward c st.trial st.t a) c.p_stp st.num_tr
        (rdm_obs c st.trial st.t st.rng).2).1 = c.R_ABORTED
      rw [hc, hr, ttnt_stop_reward]
    · show rdm_status c st.trial st.t a = _
      exact hst

/-! ## C3: decision-period choices end the trial with the
correct/fail reward -/

/-- C3: in every task, a non-fixate action taken at a timestep of the
designated decision/response period ends the trial (`new_trial = True`
for the `PeriodEnv` tasks, `status['continue'] = False` for `RDM`),
and the reward is the configured correct value when the action matches
the trial's ground truth and the configured fail value otherwise. -/
theorem c3_decision_outcome :
    (∀ (c : NAltCfg) (sd : ℚ) (gt : ℕ) (t : ℤ) (a : ℕ), 0 < c.dt → 0 ≤ sd →
       inIdx (nalt_decIdx c sd) t → a ≠ 0 →
       nalt_reward c sd gt t a =
         (if a = gt then c.r_correct else c.r_fail) ∧
       nalt_newTrial c sd t a = true) ∧
    (∀ (c : DMCCfg) (gt t a : ℤ), 0 < c.dt → 0 ≤ c.sample →
       0 ≤ c.first_delay → inIdx (dmc_testIdx c) t → a ≠ 0 →
       dmc_reward c gt t a = (if a = gt then c.r_correct else c.r_fail) ∧
       dmc_newTrial c t a = true) ∧
    (∀ (c : RDMCfg) (st : RDMState) (a : Fin 3),
       inIdx (rdm_decIdx c st.trial.stimulus) (st.t - 1) → a.val ≠ 0 →
       st.trial.left_right = -1 ∨ st.trial.left_right = 1 →
       (rdm_step c st a).2.reward =
         (if a = rdm_gtAction st.trial.left_right then c.R_CORRECT
          else c.R_FAIL) ∧
       (rdm_step c st a).2.info.head? =
         some ("continue", DVal.bool false)) := by
  refine ⟨?_, ?_, ?_⟩
  · intro c sd gt t a hdt hsd hdec ha
    have nf : ¬ inIdx (nalt_fixIdx c) t := by
      intro h
      have m1 : roundIdx c.fixation c.dt ≤ roundIdx (c.fixation + sd) c.dt :=
        roundIdx_mono hdt (by linarith)
      exact absurd h.2 (not_lt.mpr (m1.trans hdec.1))
    have hg : nalt_gtNow c sd gt t = gt := by
      unfold nalt_gtNow
      rw [if_pos hdec]
    constructor
    · unfold nalt_reward
      rw [if_neg nf, if_pos hdec, if_pos ha, hg]
    · unfold nalt_newTrial
      rw [if_neg nf, if_pos hdec]
      exact decide_eq_true ha
  · intro c gt t a hdt hsa hde htest ha
    have nf : ¬ inIdx (dmc_fixIdx c) t := by
      intro h
      have m1 : roundIdx c.fixation c.dt ≤
          roundIdx (c.fixation + c.sample + c.first_delay) c.dt :=
        roundIdx_mono hdt (by linarith)
      exact absurd h.2 (not_lt.mpr (m1.trans htest.1))
    have hg : dmc_gtNow c gt t = gt := by
      unfold dmc_gtNow
      rw [if_pos htest]
    constructor
    · unfold dmc_reward
      rw [if_neg nf, if_pos htest, if_pos ha, hg]
    · unfold dmc_newTrial
      rw [if_neg nf, if_pos htest]
      exact decide_eq_true ha
  · intro c st a hdec ha hlr
    have hor : a.val = 1 ∨ a.val = 2 := by omega
    have hc : rdm_contFlag c st.trial st.t a = false := by
      unfold rdm_contFlag
      rw [if_neg (not_not_intro hdec)]
      exact decide_eq_false (not_not_intro hor)
    have hpol : rdm_policyReward c st.trial st.t a =
        (if a = rdm_gtAction st.trial.left_right then c.R_CORRECT
         else c.R_FAIL) := by
      unfold rdm_policyReward rdm_gtAction
      rw [if_neg (not_not_intro hdec)]
      rcases hor with h1 | h2
      · rw [if_pos h1]
        have ha1 : a = 1 := Fin.ext h1
        rcases hlr with h | h <;> rw [h, ha1] <;>
          first
          | (norm_num; rw [if_neg (by decide)])
          | norm_num
      · have hne : ¬ (a.val = 1) := by omega
        rw [if_neg hne, if_pos h2]
        have ha2 : a = 2 := Fin.ext h2
        rcases hlr with h | h <;> rw [h, ha2] <;>
          first
          | (norm_num; rw [if_neg (by decide)])
          | norm_num
    constructor
    · show (tasktools_new_trial st.t (ceilIdx rdmTmax c.dt)
        (rdm_contFlag c st.trial st.t a) c.R_MISS
        (rdm_policyReward c st.trial st.t a) c.p_stp st.num_tr
        (rdm_obs c st.trial st.t st.rng).2).1 = _
      rw [hc, ttnt_stop_reward, hpol]
    · show (rdm_status c st.trial st.t a).head? = _
      unfold rdm_status
      rw [if_neg (not_not_intro hdec)]
      rcases hor with h1 | h2
      · rw [if_pos h1]
        rfl
      · rw [if_neg (by omega : ¬ (a.val = 1)), if_pos h2]
        rfl

/-- Witness for `c3_decision_outcome`: default constructions, a
decision-period timestep, and a matching choice in each task. -/
theorem c3_witness :
    nalt_reward (naltInit 100 3) 330 2 8 2 = (naltInit 100 3).r_correct ∧
    dmc_reward (dmcInit 100) 1 22 1 = (dmcInit 100).r_correct ∧
    (rdm_step (rdmInit 100 0) ⟨⟨330, -1, 0⟩, 12, 0, ⟨fun _ => 0, 0⟩⟩ 1).2.reward
      = (rdmInit 100 0).R_CORRECT := by
  have e8 : roundIdx (500 + 330 : ℚ) 100 = 8 :=
    roundIdx_eq (by norm_num) (by norm_num)
  have e13 : roundIdx (500 + 330 + 500 : ℚ) 100 = 13 :=
    roundIdx_eq (by norm_num) (by norm_num)
  have e22 : roundIdx (500 + 650 + 1000 : ℚ) 100 = 22 :=
    roundIdx_eq (by norm_num) (by norm_num)
  have e28 : roundIdx (500 + 650 + 1000 + 650 : ℚ) 100 = 28 :=
    roundIdx_eq (by norm_num) (by norm_num)
  have e11 : roundIdx (750 + 330 : ℚ) 100 = 11 :=
    roundIdx_eq (by norm_num) (by norm_num)
  have e16 : roundIdx (750 + 330 + 500 : ℚ) 100 = 16 :=
    roundIdx_eq (by norm_num) (by norm_num)
  have memNalt : inIdx (nalt_decIdx (naltInit 100 3) 330) 8 := by
    constructor
    · rw [show (nalt_decIdx (naltInit 100 3) 330).1 =
        roundIdx (500 + 330 : ℚ) 100 from rfl, e8]
    · rw [show (nalt_decIdx (naltInit 100 3) 330).2 =
        roundIdx (500 + 330 + 500 : ℚ) 100 from rfl, e13]
      norm_num
  have memDmc : inIdx (dmc_testIdx (dmcInit 100)) 22 := by
    constructor
    · rw [show (dmc_testIdx (dmcInit 100)).1 =
        roundIdx (500 + 650 + 1000 : ℚ) 100 from rfl, e22]
    · rw [show (dmc_testIdx (dmcInit 100)).2 =
        roundIdx (500 + 650 + 1000 + 650 : ℚ) 100 from rfl, e28]
      norm_num
  have memRdm : inIdx (rdm_decIdx (rdmInit 100 0) 330) (12 - 1) := by
    constructor
    · show roundIdx (750 + 330 : ℚ) 100 ≤ 12 - 1
      rw [e11]
      norm_num
    · show (12 - 1 : ℤ) < roundIdx (750 + 330 + 500 : ℚ) 100
      rw [e16]
      norm_num
  refine ⟨?_, ?_, ?_⟩
  · have h := (c3_decision_outcome.1 (naltInit 100 3) 330 2 8 2
      (by norm_num [naltInit]) (by norm_num) memNalt (by norm_num)).1
    simpa using h
  · have h := (c3_decision_outcome.2.1 (dmcInit 100) 1 22 1
      (by norm_num [dmcInit]) (by norm_num [dmcInit]) (by norm_num [dmcInit])
      memDmc (by norm_num)).1
    simpa using h
  · have h := (c3_decision_outcome.2.2 (rdmInit 100 0)
      ⟨⟨330, -1, 0⟩, 12, 0, ⟨fun _ => 0, 0⟩⟩ 1 memRdm
      (by norm_num) (Or.inl rfl)).1
    simpa [rdm_gtAction] using h

/-! ## C4: the ReadySetGo production reward -/

/-- C4, counterexample.  With `dt = 25`, `gain = 1`, measure 500
(production 500, threshold `0.2*500 + 25 = 125`), the grid timestep
`t = 1375` lies in the production period and has
`eps = |1375 - 1000 - 500| = 125`, exactly the tolerance threshold, so
the code takes the non-fail branch — yet the reward is
`min((1 - 125/125)**1.5, 0.1) * R_CORRECT = 0`, which does not lie in
`(0, R_CORRECT]`.  (The same `min(·, 0.1)` cap bounds every production
reward by `0.1`, not `R_CORRECT`.) -/
theorem c4_counterexample :
    inSpan (rsg_prodSpan (rsgInit 25 (500, 83, 83) 1) 500) 1375 ∧
    rsg_eps (rsgInit 25 (500, 83, 83) 1) 500 1375 =
      rsg_thr (rsgInit 25 (500, 83, 83) 1) 500 ∧
    rsg_reward (rsgInit 25 (500, 83, 83) 1) 500 1375 1 = 0 ∧
    ¬ (0 < rsg_reward (rsgInit 25 (500, 83, 83) 1) 500 1375 1) := by
  have hm1 : snap ((500 : ℚ) + 500) 25 = 1000 := by
    unfold snap
    rw [show roundIdx ((500 : ℚ) + 500) 25 = 40 from
      roundIdx_eq (by norm_num) (by norm_num)]
    norm_num
  have hps1 : snap ((500 : ℚ) + 500 + 83) 25 = 1075 := by
    unfold snap
    rw [show roundIdx ((500 : ℚ) + 500 + 83) 25 = 43 from
      roundIdx_eq (by norm_num) (by norm_num)]
    norm_num
  have hps2 : snap ((500 : ℚ) + 500 + 83 + 2 * (500 * 1)) 25 = 2075 := by
    unfold snap
    rw [show roundIdx ((500 : ℚ) + 500 + 83 + 2 * (500 * 1)) 25 = 83 from
      roundIdx_eq (by norm_num) (by norm_num)]
    norm_num
  have hmem : inSpan (rsg_prodSpan (rsgInit 25 (500, 83, 83) 1) 500) 1375 := by
    constructor
    · show snap ((500 : ℚ) + 500 + 83) 25 ≤ 1375
      rw [hps1]
      norm_num
    · show (1375 : ℚ) < snap ((500 : ℚ) + 500 + 83 + 2 * (500 * 1)) 25
      rw [hps2]
      norm_num
  have heps : rsg_eps (rsgInit 25 (500, 83, 83) 1) 500 1375 = 125 := by
    unfold rsg_eps
    show |(1375 : ℚ) - snap ((500 : ℚ) + 500) 25 - 500 * 1| = 125
    rw [hm1]
    rw [show (1375 : ℚ) - 1000 - 500 * 1 = -125 by norm_num, abs_neg,
      abs_of_nonneg (by norm_num)]
  have hthr : rsg_thr (rsgInit 25 (500, 83, 83) 1) 500 = 125 := by
    unfold rsg_thr
    show (1 : ℚ)/5 * (500 * 1) + 25 = 125
    norm_num
  have hrw : rsg_reward (rsgInit 25 (500, 83, 83) 1) 500 1375 1 = 0 := by
    simp only [rsg_reward]
    rw [if_pos ⟨hmem, rfl⟩, if_neg (by rw [heps, hthr]; norm_num),
      heps, hthr]
    rw [show ((1 - 125/125 : ℚ) : ℝ) = 0 by norm_num,
      Real.zero_rpow (by norm_num : (1.5 : ℝ) ≠ 0)]
    norm_num
  exact ⟨hmem, heps.trans hthr.symm, hrw, by rw [hrw]; norm_num⟩

/-- C4, amended: for a `go` at a production timestep with
`eps ≤ threshold` the reward equals
`min((1 - eps/threshold)**1.5, 0.1) * R_CORRECT`; it lies in
`[0, 0.1 * R_CORRECT]` (zero exactly at `eps = threshold`), is
non-increasing as `eps` grows, and a `go` with `eps > threshold`
yields the fail reward. -/
theorem c4_amended (c : RSGCfg) (m t : ℚ) (hR : 0 ≤ c.R_CORRECT)
    (hthr : 0 < rsg_thr c m) (hin : inSpan (rsg_prodSpan c m) t)
    (heps : rsg_eps c m t ≤ rsg_thr c m) :
    rsg_reward c m t 1 =
      min (((1 - rsg_eps c m t / rsg_thr c m : ℚ) : ℝ) ^ (1.5 : ℝ)) (1/10) *
        (c.R_CORRECT : ℝ) ∧
    0 ≤ rsg_reward c m t 1 ∧
    rsg_reward c m t 1 ≤ 1/10 * (c.R_CORRECT : ℝ) ∧
    (∀ t', inSpan (rsg_prodSpan c m) t' → rsg_eps c m t ≤ rsg_eps c m t' →
      rsg_eps c m t' ≤ rsg_thr c m →
      rsg_reward c m t' 1 ≤ rsg_reward c m t 1) ∧
    (∀ t', inSpan (rsg_prodSpan c m) t' → rsg_thr c m < rsg_eps c m t' →
      rsg_reward c m t' 1 = (c.R_FAIL : ℝ)) := by
  have hbase : ∀ u : ℚ, u ≤ rsg_thr c m →
      (0 : ℝ) ≤ ((1 - u / rsg_thr c m : ℚ) : ℝ) := by
    intro u hu
    have : (0 : ℚ) ≤ 1 - u / rsg_thr c m := by
      rw [sub_nonneg, div_le_one hthr]
      exact hu
    exact_mod_cast this
  have formula : ∀ t'', inSpan (rsg_prodSpan c m) t'' →
      rsg_eps c m t'' ≤ rsg_thr c m →
      rsg_reward c m t'' 1 =
        min (((1 - rsg_eps c m t'' / rsg_thr c m : ℚ) : ℝ) ^ (1.5 : ℝ))
          (1/10) * (c.R_CORRECT : ℝ) := by
    intro t'' hin'' heps''
    simp only [rsg_reward]
    rw [if_pos ⟨hin'', rfl⟩, if_neg (not_lt.mpr heps'')]
  have hf := formula t hin heps
  have hnn : (0 : ℝ) ≤
      ((1 - rsg_eps c m t / rsg_thr c m : ℚ) : ℝ) ^ (1.5 : ℝ) :=
    Real.rpow_nonneg (hbase _ heps) _
  refine ⟨hf, ?_, ?_, ?_, ?_⟩
  · rw [hf]
    exact mul_nonneg (le_min hnn (by norm_num)) (by exact_mod_cast hR)
  · rw [hf]
    exact mul_le_mul_of_nonneg_right (min_le_right _ _) (by exact_mod_cast hR)
  · intro t' hin' hle' heps'
    rw [hf, formula t' hin' heps']
    refine mul_le_mul_of_nonneg_right (min_le_min ?_ le_rfl)
      (by exact_mod_cast hR)
    refine Real.rpow_le_rpow (hbase _ heps') ?_ (by norm_num)
    have : (1 : ℚ) - rsg_eps c m t' / rsg_thr c m ≤
        1 - rsg_eps c m t / rsg_thr c m := by
      have := (div_le_div_iff_of_pos_right hthr).mpr hle'
      linarith
    exact_mod_cast this
  · intro t' hin' hgt'
    simp only [rsg_reward]
    rw [if_pos ⟨hin', rfl⟩, if_pos hgt']

/-- Witness for `c4_amended`: default `ReadySetGo` construction
(`dt = 80`), measure 500, grid timestep `t = 1520`
(`eps = 20 ≤ 125`). -/
theorem c4_amended_witness :
    0 ≤ rsg_reward (rsgInit 80 (500, 83, 83) 1) 500 1520 1 ∧
    rsg_reward (rsgInit 80 (500, 83, 83) 1) 500 1520 1 ≤
      1/10 * ((rsgInit 80 (500, 83, 83) 1).R_CORRECT : ℝ) := by
  have hm1 : snap ((500 : ℚ) + 500) 80 = 1040 := by
    unfold snap
    rw [show roundIdx ((500 : ℚ) + 500) 80 = 13 from
      roundIdx_eq (by norm_num) (by norm_num)]
    norm_num
  have hps1 : snap ((500 : ℚ) + 500 + 83) 80 = 1120 := by
    unfold snap
    rw [show roundIdx ((500 : ℚ) + 500 + 83) 80 = 14 from
      roundIdx_eq (by norm_num) (by norm_num)]
    norm_num
  have hps2 : snap ((500 : ℚ) + 500 + 83 + 2 * (500 * 1)) 80 = 2080 := by
    unfold snap
    rw [show roundIdx ((500 : ℚ) + 500 + 83 + 2 * (500 * 1)) 80 = 26 from
      roundIdx_eq (by norm_num) (by norm_num)]
    norm_num
  have hmem : inSpan (rsg_prodSpan (rsgInit 80 (500, 83, 83) 1) 500) 1520 := by
    constructor
    · show snap ((500 : ℚ) + 500 + 83) 80 ≤ 1520
      rw [hps1]
      norm_num
    · show (1520 : ℚ) < snap ((500 : ℚ) + 500 + 83 + 2 * (500 * 1)) 80
      rw [hps2]
      norm_num
  have heps : rsg_eps (rsgInit 80 (500, 83, 83) 1) 500 1520 = 20 := by
    unfold rsg_eps
    show |(1520 : ℚ) - snap ((500 : ℚ) + 500) 80 - 500 * 1| = 20
    rw [hm1]
    rw [show (1520 : ℚ) - 1040 - 500 * 1 = -20 by norm_num, abs_neg,
      abs_of_nonneg (by norm_num)]
  have hthr : rsg_thr (rsgInit 80 (500, 83, 83) 1) 500 = 125 := by
    unfold rsg_thr
    show (1 : ℚ)/5 * (500 * 1) + 25 = 125
    norm_num
  have h := c4_amended (rsgInit 80 (500, 83, 83) 1) 500 1520
    (by norm_num [rsgInit]) (by rw [hthr]; norm_num) hmem
    (by rw [heps, hthr]; norm_num)
  exact ⟨h.2.1, h.2.2.1⟩

/-- Witness for `c2_amended`: each conjunct instantiated at the
tasks' default constructions (fixation timestep 0, a stimulus/sample
timestep 6, and for `RDM` the initial timestep 0). -/
theorem c2_amended_witness :
    nalt_reward (naltInit 100 3) 330 2 0 1 = (naltInit 100 3).r_abort ∧
    nalt_reward (naltInit 100 3) 330 2 6 1 = 0 ∧
    dmc_reward (dmcInit 100) 1 0 1 = (dmcInit 100).r_abort ∧
    dmc_reward (dmcInit 100) 1 6 1 = 0 ∧
    rsg_reward (rsgInit 80 (500, 83, 83) 1) 500 0 1 =
      ((rsgInit 80 (500, 83, 83) 1).R_ABORTED : ℝ) ∧
    (rdm_step (rdmInit 100 0) ⟨⟨330, 1, 0⟩, 0, 0, ⟨fun _ => 0, 0⟩⟩ 1).2.reward =
      (rdmInit 100 0).R_ABORTED := by
  have e5 : roundIdx (500 : ℚ) 100 = 5 :=
    roundIdx_eq (by norm_num) (by norm_num)
  have e5' : roundIdx (500 : ℚ) 80 = 6 :=
    roundIdx_eq (by norm_num) (by norm_num)
  have e11 : roundIdx (750 + 330 : ℚ) 100 = 11 :=
    roundIdx_eq (by norm_num) (by norm_num)
  refine ⟨?_, ?_, ?_, ?_, ?_, ?_⟩
  · exact (c2_amended.1 (naltInit 100 3) 330 2 0 1
      ⟨le_refl 0, by rw [show (nalt_fixIdx (naltInit 100 3)).2 =
        roundIdx (500 : ℚ) 100 from rfl, e5]; norm_num⟩ (by norm_num)).1
  · refine (c2_amended.2.1 (naltInit 100 3) 330 2 6 1 ⟨?_, ?_⟩).1
    · rw [show (nalt_stimIdx (naltInit 100 3) 330).1 =
        roundIdx (500 : ℚ) 100 from rfl, e5]
      norm_num
    · rw [show (nalt_stimIdx (naltInit 100 3) 330).2 =
        roundIdx (500 + 330 : ℚ) 100 from rfl,
        roundIdx_eq (a := 500 + 330) (n := 8) (by norm_num) (by norm_num)]
      norm_num
  · exact (c2_amended.2.2.1 (dmcInit 100) 1 0 1
      ⟨le_refl 0, by rw [show (dmc_fixIdx (dmcInit 100)).2 =
        roundIdx (500 : ℚ) 100 from rfl, e5]; norm_num⟩ (by norm_num)).1
  · refine (c2_amended.2.2.2.1 (dmcInit 100) 1 6 1 (by norm_num [dmcInit])
      (by norm_num [dmcInit]) (by norm_num [dmcInit]) (Or.inl ⟨?_, ?_⟩)).1
    · rw [show (dmc_sampleIdx (dmcInit 100)).1 =
        roundIdx (500 : ℚ) 100 from rfl, e5]
      norm_num
    · rw [show (dmc_sampleIdx (dmcInit 100)).2 =
        roundIdx (500 + 650 : ℚ) 100 from rfl,
        roundIdx_eq (a := 500 + 650) (n := 12) (by norm_num) (by norm_num)]
      norm_num
  · refine (c2_amended.2.2.2.2.1 (rsgInit 80 (500, 83, 83) 1) 500 0 1
      (by norm_num [rsgInit]) (by norm_num) (by norm_num [rsgInit])
      ⟨?_, ?_⟩ rfl).1
    · rw [show (rsg_fixSpan (rsgInit 80 (500, 83, 83) 1)).1 =
        snap 0 80 from rfl, snap_zero]
    · rw [show (rsg_fixSpan (rsgInit 80 (500, 83, 83) 1)).2 =
        snap 500 80 from rfl]
      unfold snap
      rw [e5']
      norm_num
  · refine (c2_amended.2.2.2.2.2 (rdmInit 100 0)
      ⟨⟨330, 1, 0⟩, 0, 0, ⟨fun _ => 0, 0⟩⟩ 1 ?_ (by norm_num)).1
    intro h
    have h1 := h.1
    rw [show (rdm_decIdx (rdmInit 100 0) 330).1 =
      roundIdx (750 + 330 : ℚ) 100 from rfl, e11] at h1
    norm_num at h1

/-- Witness for `c1_amended` at the default `ReadySetGo` construction
with measure `500` and the default `RDM` construction with stimulus
`330`. -/
theorem c1_amended_witness :
    rsg_readyIdx (rsgInit 80 (500, 83, 83) 1) ⊆
      rsg_measureIdx (rsgInit 80 (500, 83, 83) 1) 500 ∧
    rdm_fixSet (rdmInit 100 0) ∪ rdm_stimSet (rdmInit 100 0) 330 ∪
      rdm_decSet (rdmInit 100 0) 330 =
      Finset.Ico 0 (rdm_decIdx (rdmInit 100 0) 330).2 := by
  have h := c1_amended (rsgInit 80 (500, 83, 83) 1) 500 (by norm_num [rsgInit])
    (by norm_num [rsgInit]) (by norm_num [rsgInit]) (by norm_num [rsgInit])
    (by norm_num [rsgInit]) (by norm_num [rsgInit]) (rdmInit 100 0) 330
    (by norm_num [rdmInit]) (by norm_num) (by norm_num)
  exact ⟨h.2.1, h.2.2.2.2.1⟩

/-! ## C5: determinism -/

/-- C5: all stochastic draws are threaded through the explicit rng
state; two runs of `RDM` from equal states fed equal action sequences
produce equal `(obs, reward, done, status)` traces, and
`DelayedMatchCategory.new_trial` produces equal trials (and noise
draws) from equal rng states — no draw reads a hidden global source. -/
theorem c5_determinism :
    (∀ (c : RDMCfg) (s1 s2 : RDMState) (a1 a2 : List (Fin 3)),
       s1 = s2 → a1 = a2 → rdm_run c s1 a1 = rdm_run c s2 a2) ∧
    (∀ (c : DMCCfg) (g1 g2 : RNG), g1 = g2 →
       dmc_new_trial c g1 = dmc_new_trial c g2) := by
  constructor
  · intro c s1 s2 a1 a2 hs ha
    rw [hs, ha]
  · intro c g1 g2 hg
    rw [hg]

/-- Witness for `c5_determinism` at a concrete state, stream and
action sequence. -/
theorem c5_witness :
    rdm_run (rdmInit 100 0) ⟨⟨330, 1, 0⟩, 0, 0, ⟨fun _ => 0, 0⟩⟩ [0, 1, 2] =
      rdm_run (rdmInit 100 0) ⟨⟨330, 1, 0⟩, 0, 0, ⟨fun _ => 0, 0⟩⟩ [0, 1, 2] ∧
    dmc_new_trial (dmcInit 100) ⟨fun _ => 1/2, 0⟩ =
      dmc_new_trial (dmcInit 100) ⟨fun _ => 1/2, 0⟩ :=
  ⟨c5_determinism.1 (rdmInit 100 0) ⟨⟨330, 1, 0⟩, 0, 0, ⟨fun _ => 0, 0⟩⟩
      ⟨⟨330, 1, 0⟩, 0, 0, ⟨fun _ => 0, 0⟩⟩ [0, 1, 2] [0, 1, 2] rfl rfl,
   c5_determinism.2 (dmcInit 100) ⟨fun _ => 1/2, 0⟩ ⟨fun _ => 1/2, 0⟩ rfl⟩

/-! ## C6: the info record's fields -/

/-- C6, counterexample.  The claim asserts every task's per-step info
record carries `new_trial` and the ground truth.  The `status`
dictionary of `RDM.step` (here at the initial state, fixating) is
exactly `{'continue': True}`: it has neither a `new_trial` key nor any
ground-truth key. -/
theorem c6_counterexample :
    keysOf ((rdm_step (rdmInit 100 0)
        ⟨⟨330, 1, 0⟩, 0, 0, ⟨fun _ => 0, 0⟩⟩ 0).2.info) = ["continue"] ∧
    "new_trial" ∉ keysOf ((rdm_step (rdmInit 100 0)
        ⟨⟨330, 1, 0⟩, 0, 0, ⟨fun _ => 0, 0⟩⟩ 0).2.info) ∧
    "gt" ∉ keysOf ((rdm_step (rdmInit 100 0)
        ⟨⟨330, 1, 0⟩, 0, 0, ⟨fun _ => 0, 0⟩⟩ 0).2.info) := by
  have e11 : roundIdx (750 + 330 : ℚ) 100 = 11 :=
    roundIdx_eq (by norm_num) (by norm_num)
  have hnd : ¬ inIdx (rdm_decIdx (rdmInit 100 0) 330) (0 - 1) := by
    intro h
    have h1 := h.1
    rw [show (rdm_decIdx (rdmInit 100 0) 330).1 =
      roundIdx (750 + 330 : ℚ) 100 from rfl, e11] at h1
    norm_num at h1
  have hst : rdm_status (rdmInit 100 0) ⟨330, 1, 0⟩ 0 0 =
      [("continue", DVal.bool true)] := by
    unfold rdm_status
    rw [if_pos hnd, if_neg (fun h => h rfl)]
  have hk : keysOf ((rdm_step (rdmInit 100 0)
      ⟨⟨330, 1, 0⟩, 0, 0, ⟨fun _ => 0, 0⟩⟩ 0).2.info) = ["continue"] := by
    show keysOf (rdm_status (rdmInit 100 0) ⟨330, 1, 0⟩ 0 0) = ["continue"]
    rw [hst]
    rfl
  refine ⟨hk, ?_, ?_⟩
  · rw [hk]
    simp
  · rw [hk]
    simp

/-- C6, amended: the info dictionaries of
`nalt_PerceptualDecisionMaking._step`, `DelayedMatchCategory._step`
and `ReadySetGo._step` carry exactly the keys `new_trial` and `gt` on
every step; the `status` dictionary of `RDM.step` always carries a
boolean `continue` key (and no `new_trial` or ground-truth field). -/
theorem c6_amended :
    (∀ (c : NAltCfg) (sd : ℚ) (gt : ℕ) (ob : List ℚ) (t : ℤ) (a : ℕ),
       keysOf ((nalt_step c sd gt ob t a).info) = ["new_trial", "gt"]) ∧
    (∀ (c : DMCCfg) (gt : ℤ) (ob : List ℚ) (t a : ℤ),
       keysOf ((dmc_step c gt ob t a).info) = ["new_trial", "gt"]) ∧
    (∀ (c : RSGCfg) (m t : ℚ) (a : Fin 2),
       keysOf (rsg_step c m t a).2.2.2 = ["new_trial", "gt"]) ∧
    (∀ (c : RDMCfg) (st : RDMState) (a : Fin 3),
       "continue" ∈ keysOf ((rdm_step c st a).2.info)) := by
  refine ⟨fun _ _ _ _ _ _ => rfl, fun _ _ _ _ _ => rfl,
    fun _ _ _ _ => rfl, ?_⟩
  intro c st a
  show "continue" ∈ keysOf (rdm_status c st.trial st.t a)
  unfold rdm_status
  split_ifs <;> simp [keysOf]

/-! ## C7: the stimulus-minimum adjustment in RDM -/

/-- C7: `RDM.__init__` stores `stimulus_min = max(80, dt)` —
`np.max([self.stimulus_min, dt])` applied once at construction — and
`_new_trial` passes the stored minimum to the truncated-exponential
sampler unchanged, so every drawn stimulus duration is at least the
stored minimum; no `max(·, dt)` is re-applied at draw time, as the
final conjunct shows on a configuration whose stored minimum `10` is
below `dt = 100`: the drawn duration is `10 < dt`. -/
theorem c7_stimulus_min :
    (∀ dt p : ℚ, (rdmInit dt p).stimulus_min = max 80 dt) ∧
    (∀ (c : RDMCfg) (g : RNG),
       c.stimulus_min ≤ (rdm_new_trial c g).1.stimulus) ∧
    ((rdm_new_trial ⟨100, 10, -1, 1, 0, 0, 0⟩
        ⟨fun _ => 1/33, 0⟩).1.stimulus = 10 ∧ (10 : ℚ) < 100) := by
  refine ⟨fun _ _ => rfl, ?_, ?_, by norm_num⟩
  · intro c g
    show c.stimulus_min ≤
      truncated_exponential (g.stream g.pos) 330 c.stimulus_min 1500
    unfold truncated_exponential
    exact le_max_left _ _
  · show truncated_exponential (1/33) 330 10 1500 = 10
    unfold truncated_exponential
    rw [show (330 : ℚ) * (1/33) = 10 by norm_num]
    rw [min_eq_right (by norm_num), max_self]

/-! ## C8: the done flag is always False -/

/-- C8: every task's step function returns `done = False` on every
input — trial boundaries are signalled only through the info record,
never through the `done` flag. -/
theorem c8_done_false :
    (∀ (c : NAltCfg) (sd : ℚ) (gt : ℕ) (ob : List ℚ) (t : ℤ) (a : ℕ),
       (nalt_step c sd gt ob t a).done = false) ∧
    (∀ (c : DMCCfg) (gt : ℤ) (ob : List ℚ) (t a : ℤ),
       (dmc_step c gt ob t a).done = false) ∧
    (∀ (c : RSGCfg) (m t : ℚ) (a : Fin 2),
       (rsg_step c m t a).2.2.1 = false) ∧
    (∀ (c : RDMCfg) (st : RDMState) (a : Fin 3),
       (rdm_step c st a).2.done = false) :=
  ⟨fun _ _ _ _ _ _ => rfl, fun _ _ _ _ _ => rfl, fun _ _ _ _ => rfl,
   fun _ _ _ => rfl⟩

/-! ## C9: the ReadySetGo ground truth is one-hot -/

/-- C9: the pair `info['gt']` returned by `ReadySetGo._step` is
one-hot at every timestep: it equals `(0, 1)` exactly when the
timestep lies in the production epoch with
`eps = |t_prod - production| < dt/2 + 1`, and `(1, 0)` in every other
case; and `rsg_step` publishes exactly this pair under the `gt` key. -/
theorem c9_gt_onehot (c : RSGCfg) (m t : ℚ) (hdt : 0 < c.dt) (hm : 0 ≤ m)
    (hs : 0 ≤ c.setDur) :
    (rsg_gt c m t = (1, 0) ∨ rsg_gt c m t = (0, 1)) ∧
    (rsg_gt c m t = (0, 1) ↔
      inSpan (rsg_prodSpan c m) t ∧ rsg_eps c m t < c.dt / 2 + 1) ∧
    (∀ a : Fin 2, (rsg_step c m t a).2.2.2 =
      [("new_trial", DVal.bool (rsg_newTrial c m t a)),
       ("gt", DVal.vec [(rsg_gt c m t).1, (rsg_gt c m t).2])]) := by
  have hdisj : ¬ (inSpan (rsg_fixSpan c) t ∧ inSpan (rsg_prodSpan c m) t) := by
    rintro ⟨h1, h2⟩
    have hle : snap c.fixation c.dt ≤
        snap (c.fixation + m + c.setDur) c.dt :=
      snap_mono hdt (by linarith)
    exact absurd h2.1 (not_le.mpr (lt_of_lt_of_le h1.2 hle))
  have hval : (inSpan (rsg_prodSpan c m) t ∧ rsg_eps c m t < c.dt / 2 + 1 ∧
      rsg_gt c m t = (0, 1)) ∨
      (¬ (inSpan (rsg_prodSpan c m) t ∧ rsg_eps c m t < c.dt / 2 + 1) ∧
      rsg_gt c m t = (1, 0)) := by
    by_cases hp : inSpan (rsg_prodSpan c m) t
    · have hnf : ¬ inSpan (rsg_fixSpan c) t := fun h => hdisj ⟨h, hp⟩
      by_cases he : rsg_eps c m t < c.dt / 2 + 1
      · refine Or.inl ⟨hp, he, ?_⟩
        simp only [rsg_gt]
        rw [if_pos hp, if_pos he, if_neg hnf]
      · refine Or.inr ⟨fun h => he h.2, ?_⟩
        simp only [rsg_gt]
        rw [if_pos hp, if_neg he, if_neg hnf]
    · refine Or.inr ⟨fun h => hp h.1, ?_⟩
      simp only [rsg_gt]
      rw [if_neg hp]
      by_cases hf : inSpan (rsg_fixSpan c) t
      · rw [if_pos hf]
      · rw [if_neg hf]
  refine ⟨?_, ?_, fun a => rfl⟩
  · rcases hval with ⟨_, _, h⟩ | ⟨_, h⟩
    · exact Or.inr h
    · exact Or.inl h
  · constructor
    · intro heq
      rcases hval with ⟨hp, he, _⟩ | ⟨_, h⟩
      · exact ⟨hp, he⟩
      · rw [h] at heq
        exact absurd heq (by norm_num [Prod.ext_iff])
    · rintro ⟨hp, he⟩
      rcases hval with ⟨_, _, h⟩ | ⟨hn, _⟩
      · exact h
      · exact absurd ⟨hp, he⟩ hn

/-- Witness for `c9_gt_onehot`: default construction, measure 500,
timestep 0. -/
theorem c9_witness :
    rsg_gt (rsgInit 80 (500, 83, 83) 1) 500 0 = (1, 0) ∨
    rsg_gt (rsgInit 80 (500, 83, 83) 1) 500 0 = (0, 1) :=
  (c9_gt_onehot (rsgInit 80 (500, 83, 83) 1) 500 0 (by norm_num [rsgInit])
    (by norm_num) (by norm_num [rsgInit])).1

/-! ## C10: the noise-free nalt stimulus vector -/

/-- C10: the noise-free stimulus vector written by
`nalt_PerceptualDecisionMaking.new_trial` has length `n`, value
`(1 + coh/100)/2` at the ground-truth channel `ground_truth - 1`, and
`(1 - coh/100)/2` at every other channel; for `coh > 0` the
ground-truth channel is strictly the largest. -/
theorem c10_stimulus (n : ℕ) (coh : ℚ) (gt : ℕ) (h1 : 1 ≤ gt) (h2 : gt ≤ n) :
    (nalt_stim n coh gt).length = n ∧
    (nalt_stim n coh gt).getD (gt - 1) 0 = (1 + coh / 100) / 2 ∧
    (∀ i, i < n → i ≠ gt - 1 →
      (nalt_stim n coh gt).getD i 0 = (1 - coh / 100) / 2) ∧
    (0 < coh → ∀ i, i < n → i ≠ gt - 1 →
      (nalt_stim n coh gt).getD i 0 < (nalt_stim n coh gt).getD (gt - 1) 0) := by
  have hlt : gt - 1 < n := by omega
  have hmain : (nalt_stim n coh gt).getD (gt - 1) 0 = (1 + coh / 100) / 2 := by
    unfold nalt_stim
    rw [List.getD_eq_getElem?_getD,
      List.getElem?_set_eq_of_lt _ (by simpa using hlt)]
    rfl
  have hoth : ∀ i, i < n → i ≠ gt - 1 →
      (nalt_stim n coh gt).getD i 0 = (1 - coh / 100) / 2 := by
    intro i hi hne
    unfold nalt_stim
    rw [List.getD_eq_getElem?_getD, List.getElem?_set_ne (Ne.symm hne)]
    simp [List.getElem?_replicate, hi]
  refine ⟨by simp [nalt_stim], hmain, hoth, ?_⟩
  intro hc i hi hne
  rw [hmain, hoth i hi hne]
  linarith

/-- Witness for `c10_stimulus` at `n = 3`, `coh = 6.4`, ground truth
2. -/
theorem c10_witness :
    (nalt_stim 3 (32/5) 2).getD (2 - 1) 0 = (1 + (32/5) / 100) / 2 ∧
    (0 < (32/5 : ℚ) → ∀ i, i < 3 → i ≠ 2 - 1 →
      (nalt_stim 3 (32/5) 2).getD i 0 < (nalt_stim 3 (32/5) 2).getD (2 - 1) 0) := by
  have h := c10_stimulus 3 (32/5) 2 (by norm_num) (by norm_num)
  exact ⟨h.2.1, fun hc => h.2.2.2 hc⟩

end NeuroGym
